import Mathlib

/-!
Verification of the eb-api build-orchestration core: the Lease Manager
(claim/release/heartbeat/prune over a pool of worker VMs) and the Build
Chain Manager (per-project staged-build dependency chains).  The service
implementation itself is not part of the checked-in sources (only its
tests are), so the operations below are modelled from the specification
and checked against the behaviour the tests pin down.
-/

/-- Lease TTL in seconds (default 900s per the spec). -/
def LEASE_TTL : Nat := 900

/-- Heartbeat staleness window in seconds (default 90s per the spec). -/
def HEARTBEAT_TTL : Nat := 90

/-- VM lifecycle status. -/
inductive VMStatus where
  | idle
  | busy
  | starting
  | error
deriving DecidableEq, Repr

/-- Modelled from the spec: the VM record of the VM Registry (§3).  The
repository ships only the tests of the Lease Manager, so the record is
reconstructed from the data model section: timestamps are naturals
(seconds), the lease-owner label is modelled by the owning project id. -/
structure VM where
  id : Nat
  instance_id : Nat
  status : VMStatus
  runtime_state : String
  project_id : Option Nat
  lease_owner : Option Nat
  lease_expires_at : Option Nat
  last_heartbeat_at : Nat
  last_shutdown_at : Option Nat
  desired_build_id : Option Nat
deriving DecidableEq, Repr

/-- Typed error of the Lease Manager claim path. -/
inductive VmError where
  | no_idle_vms
deriving DecidableEq, Repr

/-- The fields written when a claim commits: status becomes busy, the
project takes ownership, the lease expiry is set to now + LEASE_TTL and
the heartbeat is reset. -/
def claimUpdate (vm : VM) (pid now : Nat) : VM :=
  { vm with
    status := .busy
    runtime_state := "starting"
    project_id := some pid
    lease_owner := some pid
    lease_expires_at := some (now + LEASE_TTL)
    last_heartbeat_at := now }

/-- Modelled from the spec: `Claim(projectID)` of the Lease Manager
(§4.1), whose implementation is absent from the sources.  Atomically
transitions the first idle VM to busy; with no idle VM it fails fast
with no_idle_vms and leaves the pool untouched. -/
def claimVm (pool : List VM) (pid now : Nat) : Except VmError VM × List VM :=
  match pool with
  | [] => (.error .no_idle_vms, [])
  | vm :: rest =>
    if vm.status = .idle then
      let c := claimUpdate vm pid now
      (.ok c, c :: rest)
    else
      let r := claimVm rest pid now
      (r.1, vm :: r.2)

/-- Modelled from the spec: the conditional-update primitive
(`UPDATE ... WHERE id = vmId AND status = 'idle'`, §9) behind a claim
directed at one specific VM; the absent implementation is described by
test_claim_fails_on_busy_vm.  Returns the updated pool together with
the number of rows affected. -/
def claimWhereIdle (pool : List VM) (vmId pid now : Nat) : List VM × Nat :=
  (pool.map (fun vm => if vm.id = vmId ∧ vm.status = .idle then claimUpdate vm pid now else vm),
   pool.countP (fun vm => decide (vm.id = vmId ∧ vm.status = .idle)))

/-- The fields written by a release: back to idle with the project,
lease and desired-build bookkeeping cleared. -/
def releaseUpdate (vm : VM) (now : Nat) : VM :=
  { vm with
    status := .idle
    runtime_state := "serving"
    project_id := none
    desired_build_id := none
    lease_owner := none
    lease_expires_at := none
    last_shutdown_at := some now }

/-- Modelled from the spec: `Release(instanceID)` of the Lease Manager
(§4.1), whose implementation is absent from the sources.  Unconditional
(hence idempotent) transition to idle, returning the rows affected. -/
def releaseVm (pool : List VM) (instanceId now : Nat) : List VM × Nat :=
  (pool.map (fun vm => if vm.instance_id = instanceId then releaseUpdate vm now else vm),
   pool.countP (fun vm => decide (vm.instance_id = instanceId)))

/-- The staleness predicate of the prune sweep: a live-status VM whose
heartbeat is older than HEARTBEAT_TTL seconds. -/
def pruneCond (vm : VM) (now : Nat) : Prop :=
  (vm.status = .idle ∨ vm.status = .busy ∨ vm.status = .starting) ∧
    vm.last_heartbeat_at + HEARTBEAT_TTL < now

instance (vm : VM) (now : Nat) : Decidable (pruneCond vm now) := by
  unfold pruneCond; infer_instance

/-- The fields written when a VM is pruned: status becomes error and the
ownership/lease bookkeeping is cleared. -/
def pruneUpdate (vm : VM) (now : Nat) : VM :=
  { vm with
    status := .error
    runtime_state := "error"
    project_id := none
    desired_build_id := none
    lease_owner := none
    lease_expires_at := none
    last_shutdown_at := some now }

/-- Modelled from the spec: `Prune()` of the Lease Manager (§4.1), whose
implementation is absent from the sources; test_stale_heartbeat_pruned
pins the sweep down as one conditional update over the pool. -/
def pruneStaleVms (pool : List VM) (now : Nat) : List VM :=
  pool.map (fun vm => if pruneCond vm now then pruneUpdate vm now else vm)

/-- Ids of the idle VMs of a pool, in pool order. -/
def idleIds (pool : List VM) : List Nat :=
  (pool.filter (fun vm => vm.status = .idle)).map VM.id

/-- Number of idle VMs of a pool. -/
def idleCount (pool : List VM) : Nat :=
  (pool.filter (fun vm => vm.status = .idle)).length

/-- Modelled from the spec: M callers racing on `AcquireVM` (§5).  The
operations are linearizable per VM, so a concurrent batch is modelled by
its linearization: the claims run one after the other against the
evolving pool. -/
def runClaims (pool : List VM) (pids : List Nat) (now : Nat) :
    List (Except VmError VM) × List VM :=
  match pids with
  | [] => ([], pool)
  | p :: ps =>
    let r := claimVm pool p now
    let rs := runClaims r.2 ps now
    (r.1 :: rs.1, rs.2)

/-- Ids of the VMs handed out by the successful claims of a batch. -/
def successIds (rs : List (Except VmError VM)) : List Nat :=
  rs.filterMap (fun r => match r with | .ok vm => some vm.id | .error _ => none)

/-- Number of successful claims of a batch. -/
def successCount (rs : List (Except VmError VM)) : Nat :=
  rs.countP (fun r => match r with | .ok _ => true | .error _ => false)

/-- Number of claims of a batch that failed with no_idle_vms. -/
def failureCount (rs : List (Except VmError VM)) : Nat :=
  rs.countP (fun r => match r with | .ok _ => false | .error _ => true)

/-- Build lifecycle status: `pending → {queued|running} → {succeeded|failed}`. -/
inductive BuildStatus where
  | pending
  | queued
  | running
  | succeeded
  | failed
deriving DecidableEq, Repr

/-- Modelled from the spec: the Build record (§3).  The Chain Manager
implementation is absent from the sources; the record carries the
self-referential depends_on_build_id column the chain lives in.  The
build table is a list in creation order (new builds are appended). -/
structure Build where
  id : Nat
  project_id : Nat
  status : BuildStatus
  depends_on_build_id : Option Nat
  content : String
  attachments : String
  version_number : Nat
  created_at : Nat
deriving DecidableEq, Repr

/-- Typed errors of the Build Chain Manager. -/
inductive ChainError where
  | max_staged_builds
  | build_failed
  | can_only_delete_staged
  | staged_locked
deriving DecidableEq, Repr

/-- A terminal build status (succeeded or failed). -/
def isTerminal : BuildStatus → Bool
  | .succeeded => true
  | .failed => true
  | _ => false

/-- An active status: non-terminal and non-pending (queued or running). -/
def isActiveStatus : BuildStatus → Bool
  | .queued => true
  | .running => true
  | _ => false

/-- The builds of one project, in creation order. -/
def projectBuilds (builds : List Build) (pid : Nat) : List Build :=
  builds.filter (fun b => b.project_id = pid)

/-- Modelled from the spec: `GetStagedBuilds(projectID)` (§4.2), absent
from the sources.  The pending builds of the project, oldest first. -/
def getStagedBuilds (builds : List Build) (pid : Nat) : List Build :=
  builds.filter (fun b => b.project_id = pid ∧ b.status = .pending)

/-- The project's active build (non-terminal, non-pending), when any. -/
def activeBuild (builds : List Build) (pid : Nat) : Option Build :=
  (projectBuilds builds pid).find? (fun b => isActiveStatus b.status)

/-- The project's most recently created build, when any. -/
def mostRecentBuild (builds : List Build) (pid : Nat) : Option Build :=
  (projectBuilds builds pid).getLast?

/-- The id the next staged build must depend on: the current chain tail,
or the active build when the chain is empty. -/
def chainTailId (builds : List Build) (pid : Nat) (active : Build) : Nat :=
  match (getStagedBuilds builds pid).getLast? with
  | some t => t.id
  | none => active.id

/-- Maximum number of staged builds per project. -/
def MAX_STAGED : Nat := 3

/-- Modelled from the spec: `CreateBuildMessage(projectID, content,
attachments)` (§4.2), absent from the sources.  Rejects with
build_failed when the most recent build failed; otherwise starts a new
build immediately when no active build exists, or appends a pending
build to the chain (rejecting with max_staged_builds at chain length
3).  Returns the new table, the created build, and the staged flag. -/
def createBuildMessage (builds : List Build) (pid : Nat) (content attachments : String)
    (newId now : Nat) : Except ChainError (List Build × Build × Bool) :=
  if (mostRecentBuild builds pid).any (fun b => b.status = .failed) then
    .error .build_failed
  else
    match activeBuild builds pid with
    | none =>
      let b : Build :=
        { id := newId, project_id := pid, status := .queued, depends_on_build_id := none,
          content := content, attachments := attachments,
          version_number := (projectBuilds builds pid).length + 1, created_at := now }
      .ok (builds ++ [b], b, false)
    | some act =>
      if MAX_STAGED ≤ (getStagedBuilds builds pid).length then
        .error .max_staged_builds
      else
        let b : Build :=
          { id := newId, project_id := pid, status := .pending,
            depends_on_build_id := some (chainTailId builds pid act),
            content := content, attachments := attachments,
            version_number := (projectBuilds builds pid).length + 1, created_at := now }
        .ok (builds ++ [b], b, true)

/-- Modelled from the spec: `DeleteStaged(buildID)` (§4.2), absent from
the sources.  Only a pending build may be deleted; the node is removed
and the chain spliced in the same step: every build that depended on the
deleted node is rewritten to depend on the deleted node's own
dependency (its predecessor, or the active build when it was the
head). -/
def deleteStaged (builds : List Build) (bid : Nat) : Except ChainError (List Build) :=
  match builds.find? (fun b => b.id = bid) with
  | none => .error .can_only_delete_staged
  | some delb =>
    if delb.status = .pending then
      .ok ((builds.filter (fun b => ¬ b.id = bid)).map
        (fun b =>
          if b.depends_on_build_id = some bid then
            { b with depends_on_build_id := delb.depends_on_build_id }
          else b))
    else
      .error .can_only_delete_staged

/-- Modelled from the spec: `EditStaged(buildID, content)` (§4.2),
absent from the sources.  Succeeds only while the build is pending;
after promotion it is locked. -/
def editStaged (builds : List Build) (bid : Nat) (content : String) :
    Except ChainError (List Build) :=
  match builds.find? (fun b => b.id = bid) with
  | none => .error .staged_locked
  | some b =>
    if b.status = .pending then
      .ok (builds.map (fun x => if x.id = bid then { x with content := content } else x))
    else
      .error .staged_locked

/-- Records the new status of a build. -/
def setBuildStatus (builds : List Build) (bid : Nat) (st : BuildStatus) : List Build :=
  builds.map (fun b => if b.id = bid then { b with status := st } else b)

/-- Modelled from the spec: `Promote` (§4.2) as driven by the
Coordinator (§4.3), absent from the sources: every pending build whose
dependency just succeeded leaves pending for the active start state. -/
def promoteDependents (builds : List Build) (bid : Nat) : List Build :=
  builds.map (fun b =>
    if b.status = .pending ∧ b.depends_on_build_id = some bid then
      { b with status := .queued }
    else b)

/-- Modelled from the spec: `ReportBuildStatus(build_id, status)` (§6)
with its promotion side effect (§4.3), absent from the sources: the
status is recorded, and on succeeded the dependent staged build is
promoted. -/
def reportBuildStatus (builds : List Build) (bid : Nat) (st : BuildStatus) : List Build :=
  let updated := setBuildStatus builds bid st
  if st = .succeeded then promoteDependents updated bid else updated

/-- A freshly registered idle VM, for concrete scenarios. -/
def vmIdle (i : Nat) : VM :=
  { id := i, instance_id := i, status := .idle, runtime_state := "serving",
    project_id := none, lease_owner := none, lease_expires_at := none,
    last_heartbeat_at := 0, last_shutdown_at := none, desired_build_id := none }

/-- A busy VM, for concrete scenarios. -/
def vmBusy (i : Nat) : VM :=
  { vmIdle i with status := .busy, runtime_state := "building" }

/-- A pool with two idle VMs among busy ones, mirroring the contention
scenario of test_concurrent_claims_one_wins. -/
def demoPool : List VM := [vmBusy 1, vmIdle 2, vmBusy 3, vmIdle 4]

/-- The active (non-staged) build of the concrete chain scenario of
test_delete_staged_build_with_chain_repair. -/
def demoActive : Build :=
  { id := 1, project_id := 7, status := .queued, depends_on_build_id := none,
    content := "build a todo app", attachments := "", version_number := 1, created_at := 10 }

/-- A staged build of the concrete chain scenario. -/
def demoStaged (i dep vn t : Nat) (c : String) : Build :=
  { id := i, project_id := 7, status := .pending, depends_on_build_id := some dep,
    content := c, attachments := "", version_number := vn, created_at := t }

/-- The build table after the first message: one active build. -/
def demoChain0 : List Build := [demoActive]

/-- The table after one follow-up message: active build plus one staged
build depending on it. -/
def demoChain1 : List Build := [demoActive, demoStaged 2 1 2 11 "feature a"]

/-- The table after three follow-up messages: the full chain
active(1) ← 2 ← 3 ← 4 of test_delete_staged_build_with_chain_repair. -/
def demoChain3 : List Build :=
  [demoActive, demoStaged 2 1 2 11 "feature a", demoStaged 3 2 3 12 "feature b",
   demoStaged 4 3 4 13 "feature c"]

/-- A table whose most recent build failed, mirroring
test_failed_build_blocks_new_messages. -/
def demoFailed : List Build := [{ demoActive with status := .failed }]

/-- A pool with one stale-heartbeat VM and one fresh one, mirroring
test_stale_heartbeat_pruned (sweep at time 120, TTL 90). -/
def demoStalePool : List VM :=
  [{ vmIdle 1 with last_heartbeat_at := 0 }, { vmIdle 2 with last_heartbeat_at := 100 }]

/-! ## Theorems -/

/-- C2: a Claim attempt directed at a VM that is not idle matches no
row of the conditional update, so zero rows are affected and the pool —
in particular that VM's record — is left completely unchanged. -/
theorem claim_busy_vm_no_op (pool : List VM) (vmId pid now : Nat)
    (h : ∀ vm ∈ pool, vm.id = vmId → ¬ vm.status = .idle) :
    claimWhereIdle pool vmId pid now = (pool, 0) := by
  unfold claimWhereIdle
  rw [Prod.mk.injEq]
  constructor
  · conv_rhs => rw [← List.map_id pool]
    refine List.map_congr_left ?_
    intro vm hvm
    simp only [id]
    rw [if_neg]
    rintro ⟨h1, h2⟩
    exact h vm hvm h1 h2
  · rw [List.countP_eq_zero]
    intro vm hvm
    simp only [decide_eq_true_eq, not_and]
    exact h vm hvm

/-- Witness for C2: the busy VM of the concrete pool cannot be claimed;
the update affects zero rows and changes nothing. -/
theorem claim_busy_vm_no_op_witness :
    (∀ vm ∈ [vmBusy 1], vm.id = 1 → ¬ vm.status = .idle) ∧
    claimWhereIdle [vmBusy 1] 1 9 100 = ([vmBusy 1], 0) :=
  ⟨by decide, claim_busy_vm_no_op [vmBusy 1] 1 9 100 (by decide)⟩

/-- With no idle VM in the pool, a claim fails fast with no_idle_vms and
leaves the pool untouched. -/
theorem claimVm_no_idle (pool : List VM) (pid now : Nat) (h : idleIds pool = []) :
    claimVm pool pid now = (.error .no_idle_vms, pool) := by
  induction pool with
  | nil => rfl
  | cons vm rest ih =>
    by_cases hs : vm.status = .idle
    · simp [idleIds, List.filter_cons, hs] at h
    · have h2 : idleIds rest = [] := by simpa [idleIds, List.filter_cons, hs] using h
      have hr := ih h2
      simp [claimVm, hs, hr]

/-- With at least one idle VM, a claim hands out the first idle VM: the
result's id is the head of the idle-id list and the remaining idle ids
are exactly the tail. -/
theorem claimVm_idle (pool : List VM) (pid now : Nat) (i : Nat) (is : List Nat)
    (h : idleIds pool = i :: is) :
    ∃ c pool2, claimVm pool pid now = (.ok c, pool2) ∧ c.id = i ∧ idleIds pool2 = is := by
  induction pool with
  | nil => simp [idleIds] at h
  | cons vm rest ih =>
    by_cases hs : vm.status = .idle
    · have h2 : vm.id = i ∧ idleIds rest = is := by
        simpa [idleIds, List.filter_cons, hs] using h
      refine ⟨claimUpdate vm pid now, claimUpdate vm pid now :: rest, ?_, ?_, ?_⟩
      · simp [claimVm, hs]
      · simpa [claimUpdate] using h2.1
      · simpa [idleIds, List.filter_cons, claimUpdate] using h2.2
    · have h2 : idleIds rest = i :: is := by
        simpa [idleIds, List.filter_cons, hs] using h
      obtain ⟨c, pool2, hc, hcid, hrest⟩ := ih h2
      refine ⟨c, vm :: pool2, ?_, hcid, ?_⟩
      · simp [claimVm, hs, hc]
      · simpa [idleIds, List.filter_cons, hs] using hrest

/-- Linearized contention: the ids handed out by a batch of claims are
exactly the first min(M, N) idle ids of the starting pool, popped in
order; the batch has one result per caller. -/
theorem runClaims_ids (pids : List Nat) (pool : List VM) (now : Nat) :
    successIds (runClaims pool pids now).1 = (idleIds pool).take pids.length ∧
    (runClaims pool pids now).1.length = pids.length := by
  induction pids generalizing pool with
  | nil => simp [runClaims, successIds]
  | cons p ps ih =>
    rcases hid : idleIds pool with _ | ⟨i, is⟩
    · have hc := claimVm_no_idle pool p now hid
      have hr := ih pool
      have hrun : (runClaims pool (p :: ps) now).1 =
          Except.error VmError.no_idle_vms :: (runClaims pool ps now).1 := by
        simp only [runClaims, hc]
      have hsid : successIds (Except.error VmError.no_idle_vms :: (runClaims pool ps now).1) =
          successIds (runClaims pool ps now).1 := rfl
      constructor
      · rw [hrun, hsid, hr.1, hid]
        simp
      · rw [hrun, List.length_cons, hr.2, List.length_cons]
    · obtain ⟨c, pool2, hc, hcid, hid2⟩ := claimVm_idle pool p now i is hid
      have hr := ih pool2
      have hrun : (runClaims pool (p :: ps) now).1 =
          Except.ok c :: (runClaims pool2 ps now).1 := by
        simp only [runClaims, hc]
      have hsid : successIds (Except.ok c :: (runClaims pool2 ps now).1) =
          c.id :: successIds (runClaims pool2 ps now).1 := rfl
      constructor
      · rw [hrun, hsid, hcid, hr.1, hid2]
        simp [List.take_succ_cons]
      · rw [hrun, List.length_cons, hr.2, List.length_cons]

/-- Each successful claim contributes exactly one id. -/
theorem successCount_eq_length (rs : List (Except VmError VM)) :
    successCount rs = (successIds rs).length := by
  induction rs with
  | nil => rfl
  | cons r rest ih =>
    cases r with
    | ok vm =>
      have h1 : successCount (Except.ok vm :: rest) = successCount rest + 1 := by
        simp [successCount, List.countP_cons]
      have h2 : successIds (Except.ok vm :: rest) = vm.id :: successIds rest := rfl
      rw [h1, h2, List.length_cons, ih]
    | error e =>
      have h1 : successCount (Except.error e :: rest) = successCount rest := by
        simp [successCount, List.countP_cons]
      have h2 : successIds (Except.error e :: rest) = successIds rest := rfl
      rw [h1, h2, ih]

/-- Every claim of a batch either succeeds or fails with no_idle_vms. -/
theorem success_add_failure (rs : List (Except VmError VM)) :
    successCount rs + failureCount rs = rs.length := by
  induction rs with
  | nil => rfl
  | cons r rest ih =>
    cases r with
    | ok vm =>
      have h1 : successCount (Except.ok vm :: rest) = successCount rest + 1 := by
        simp [successCount, List.countP_cons]
      have h2 : failureCount (Except.ok vm :: rest) = failureCount rest := by
        simp [failureCount, List.countP_cons]
      rw [h1, h2, List.length_cons]
      omega
    | error e =>
      have h1 : successCount (Except.error e :: rest) = successCount rest := by
        simp [successCount, List.countP_cons]
      have h2 : failureCount (Except.error e :: rest) = failureCount rest + 1 := by
        simp [failureCount, List.countP_cons]
      rw [h1, h2, List.length_cons]
      omega

/-- C1: with N idle VMs and M ≥ N claims (linearized contention),
exactly N claims succeed, the other M − N return no_idle_vms, and — the
pool carrying no duplicate VM ids — no VM is handed to two callers: the
successful results' ids are pairwise distinct. -/
theorem acquire_contention (pool : List VM) (pids : List Nat) (now : Nat)
    (hM : idleCount pool ≤ pids.length)
    (hnodup : (pool.map VM.id).Nodup) :
    successCount (runClaims pool pids now).1 = idleCount pool ∧
    failureCount (runClaims pool pids now).1 = pids.length - idleCount pool ∧
    (successIds (runClaims pool pids now).1).Nodup := by
  obtain ⟨hids, hlen⟩ := runClaims_ids pids pool now
  have hcnt : (idleIds pool).length = idleCount pool := by
    simp [idleIds, idleCount]
  have hsc : successCount (runClaims pool pids now).1 = idleCount pool := by
    rw [successCount_eq_length, hids, List.length_take, hcnt]
    omega
  refine ⟨hsc, ?_, ?_⟩
  · have hsum := success_add_failure (runClaims pool pids now).1
    omega
  · rw [hids]
    have hsub : List.Sublist (idleIds pool) (pool.map VM.id) :=
      List.Sublist.map VM.id (List.filter_sublist pool)
    have htake : List.Sublist ((idleIds pool).take pids.length) (pool.map VM.id) :=
      List.Sublist.trans (List.take_sublist _ _) hsub
    exact List.Nodup.sublist htake hnodup

/-- Witness for C1: the concrete pool has 2 idle VMs and 3 callers race;
exactly 2 claims succeed, 1 fails with no_idle_vms, and the two VMs
handed out are different. -/
theorem acquire_contention_witness :
    idleCount demoPool ≤ 3 ∧ (demoPool.map VM.id).Nodup ∧
    (successCount (runClaims demoPool [10, 11, 12] 100).1 = idleCount demoPool ∧
     failureCount (runClaims demoPool [10, 11, 12] 100).1 = 3 - idleCount demoPool ∧
     (successIds (runClaims demoPool [10, 11, 12] 100).1).Nodup) :=
  ⟨by decide, by decide, acquire_contention demoPool [10, 11, 12] 100 (by decide) (by decide)⟩

/-- C3: the prune sweep at time `now` transitions every VM whose status
is idle, busy or starting and whose heartbeat is older than
HEARTBEAT_TTL to error with project_id, lease_owner, lease_expires_at
and desired_build_id cleared and last_shutdown_at set, and leaves every
other VM (fresh heartbeat, or status outside that set) unchanged. -/
theorem prune_stale_spec (pool : List VM) (now : Nat) (i : Nat) (h : i < pool.length) :
    ((((pool.get ⟨i, h⟩).status = .idle ∨ (pool.get ⟨i, h⟩).status = .busy ∨
        (pool.get ⟨i, h⟩).status = .starting) ∧
      (pool.get ⟨i, h⟩).last_heartbeat_at + HEARTBEAT_TTL < now) →
      (pruneStaleVms pool now).get ⟨i, by simpa [pruneStaleVms] using h⟩ =
        { pool.get ⟨i, h⟩ with
          status := .error, runtime_state := "error", project_id := none,
          desired_build_id := none, lease_owner := none, lease_expires_at := none,
          last_shutdown_at := some now }) ∧
    (¬ (((pool.get ⟨i, h⟩).status = .idle ∨ (pool.get ⟨i, h⟩).status = .busy ∨
        (pool.get ⟨i, h⟩).status = .starting) ∧
      (pool.get ⟨i, h⟩).last_heartbeat_at + HEARTBEAT_TTL < now) →
      (pruneStaleVms pool now).get ⟨i, by simpa [pruneStaleVms] using h⟩ = pool.get ⟨i, h⟩) := by
  constructor
  · intro hc
    simp only [pruneStaleVms, List.get_eq_getElem, List.getElem_map]
    rw [if_pos (show pruneCond (pool[i]) now from hc)]
    rfl
  · intro hc
    simp only [pruneStaleVms, List.get_eq_getElem, List.getElem_map]
    rw [if_neg (show ¬ pruneCond (pool[i]) now from hc)]

/-- Witness for C3: in the concrete two-VM pool swept at time 120, the
stale idle VM (heartbeat at 0) is transitioned to error with its
bookkeeping cleared, and the fresh VM (heartbeat at 100) is untouched. -/
theorem prune_stale_spec_witness :
    (((demoStalePool.get ⟨0, by decide⟩).status = .idle ∨
        (demoStalePool.get ⟨0, by decide⟩).status = .busy ∨
        (demoStalePool.get ⟨0, by decide⟩).status = .starting) ∧
      (demoStalePool.get ⟨0, by decide⟩).last_heartbeat_at + HEARTBEAT_TTL < 120) ∧
    (pruneStaleVms demoStalePool 120).get ⟨0, by decide⟩ =
      { demoStalePool.get ⟨0, by decide⟩ with
        status := .error, runtime_state := "error", project_id := none,
        desired_build_id := none, lease_owner := none, lease_expires_at := none,
        last_shutdown_at := some 120 } ∧
    (pruneStaleVms demoStalePool 120).get ⟨1, by decide⟩ = demoStalePool.get ⟨1, by decide⟩ :=
  ⟨by decide,
   (prune_stale_spec demoStalePool 120 0 (by decide)).1 (by decide),
   (prune_stale_spec demoStalePool 120 1 (by decide)).2 (by decide)⟩

/-- C7: with no failure gate, a message on a project without an active
build starts a new non-pending (queued) build with staged = false; with
an active build and a chain below the limit it appends a pending build
with staged = true whose dependency is the chain tail, or the active
build when the chain is empty. -/
theorem create_message_branches (builds : List Build) (pid : Nat)
    (content attachments : String) (newId now : Nat)
    (hfail : (mostRecentBuild builds pid).any (fun b => b.status = .failed) = false) :
    (activeBuild builds pid = none →
      ∃ b, createBuildMessage builds pid content attachments newId now =
          .ok (builds ++ [b], b, false) ∧
        b.status = .queued ∧ b.depends_on_build_id = none ∧ b.project_id = pid ∧
        b.content = content) ∧
    (∀ act, activeBuild builds pid = some act →
      (getStagedBuilds builds pid).length < MAX_STAGED →
      ∃ b, createBuildMessage builds pid content attachments newId now =
          .ok (builds ++ [b], b, true) ∧
        b.status = .pending ∧ b.project_id = pid ∧ b.content = content ∧
        b.depends_on_build_id = some (match (getStagedBuilds builds pid).getLast? with
          | some t => t.id
          | none => act.id)) := by
  constructor
  · intro hact
    refine ⟨{ id := newId, project_id := pid, status := .queued, depends_on_build_id := none,
              content := content, attachments := attachments,
              version_number := (projectBuilds builds pid).length + 1, created_at := now },
            ?_, rfl, rfl, rfl, rfl⟩
    simp [createBuildMessage, hfail, hact]
  · intro act hact hlen
    refine ⟨{ id := newId, project_id := pid, status := .pending,
              depends_on_build_id := some (chainTailId builds pid act),
              content := content, attachments := attachments,
              version_number := (projectBuilds builds pid).length + 1, created_at := now },
            ?_, rfl, rfl, rfl, ?_⟩
    · simp [createBuildMessage, hfail, hact, Nat.not_le.2 hlen]
    · simp [chainTailId]

/-- Witness for C7: on the concrete project the first message starts a
non-staged queued build, and a follow-up while it is active appends a
staged pending build depending on it. -/
theorem create_message_branches_witness :
    ((mostRecentBuild [] 7).any (fun b => b.status = .failed) = false ∧
      activeBuild [] 7 = none ∧
      (∃ b, createBuildMessage [] 7 "build a todo app" "" 1 10 = .ok ([] ++ [b], b, false) ∧
        b.status = .queued ∧ b.depends_on_build_id = none ∧ b.project_id = 7 ∧
        b.content = "build a todo app")) ∧
    ((mostRecentBuild demoChain0 7).any (fun b => b.status = .failed) = false ∧
      activeBuild demoChain0 7 = some demoActive ∧
      (getStagedBuilds demoChain0 7).length < MAX_STAGED ∧
      (∃ b, createBuildMessage demoChain0 7 "feature a" "" 2 11 =
          .ok (demoChain0 ++ [b], b, true) ∧
        b.status = .pending ∧ b.project_id = 7 ∧ b.content = "feature a" ∧
        b.depends_on_build_id = some (match (getStagedBuilds demoChain0 7).getLast? with
          | some t => t.id
          | none => demoActive.id))) :=
  ⟨⟨by decide, by decide,
    (create_message_branches [] 7 "build a todo app" "" 1 10 (by decide)).1 (by decide)⟩,
   ⟨by decide, by decide, by decide,
    (create_message_branches demoChain0 7 "feature a" "" 2 11 (by decide)).2
      demoActive (by decide) (by decide)⟩⟩

/-- C8: while the project's most recent build is in status failed, every
CreateBuildMessage call — whatever its content, attachments, id or time
— is rejected with Conflict(build_failed); no build is created since
only the error is returned, so this persists until an external action
clears the failure. -/
theorem failed_build_blocks (builds : List Build) (pid : Nat) (fb : Build)
    (hrec : mostRecentBuild builds pid = some fb) (hfail : fb.status = .failed)
    (content attachments : String) (newId now : Nat) :
    createBuildMessage builds pid content attachments newId now = .error .build_failed := by
  simp [createBuildMessage, hrec, Option.any, hfail]

/-- Witness for C8: on the concrete project whose only (hence most
recent) build failed, the next message is rejected with build_failed. -/
theorem failed_build_blocks_witness :
    mostRecentBuild demoFailed 7 = some { demoActive with status := .failed } ∧
    ({ demoActive with status := BuildStatus.failed }).status = .failed ∧
    createBuildMessage demoFailed 7 "add dark mode" "" 9 99 = .error .build_failed :=
  ⟨by decide, by decide,
   failed_build_blocks demoFailed 7 { demoActive with status := .failed }
     (by decide) (by decide) "add dark mode" "" 9 99⟩

/-- C4: with an active build and 3 staged builds the next message is
rejected with Conflict(max_staged_builds) (no build is created: only
the error is returned); and any successful CreateBuildMessage keeps the
project's pending count at 3 or below, so the count never exceeds 3. -/
theorem max_staged_limit (builds : List Build) (pid : Nat) (content attachments : String)
    (newId now : Nat) (act : Build) :
    ((mostRecentBuild builds pid).any (fun b => b.status = .failed) = false →
      activeBuild builds pid = some act →
      (getStagedBuilds builds pid).length = 3 →
      createBuildMessage builds pid content attachments newId now =
        .error .max_staged_builds) ∧
    ((getStagedBuilds builds pid).length ≤ 3 →
      ∀ builds2 b staged,
        createBuildMessage builds pid content attachments newId now = .ok (builds2, b, staged) →
        (getStagedBuilds builds2 pid).length ≤ 3) := by
  constructor
  · intro hfail hact hlen
    simp [createBuildMessage, hfail, hact, MAX_STAGED, hlen]
  · intro hle builds2 b staged hok
    by_cases hf : (mostRecentBuild builds pid).any (fun x => x.status = .failed) = true
    · simp [createBuildMessage, hf] at hok
    · rw [Bool.not_eq_true] at hf
      rcases hact : activeBuild builds pid with _ | a
      · simp only [createBuildMessage, hf, Bool.false_eq_true, if_false, hact,
          Except.ok.injEq, Prod.mk.injEq] at hok
        obtain ⟨h1, -, -⟩ := hok
        subst h1
        have : getStagedBuilds (builds ++
            [{ id := newId, project_id := pid, status := .queued, depends_on_build_id := none,
               content := content, attachments := attachments,
               version_number := (projectBuilds builds pid).length + 1, created_at := now }]) pid =
            getStagedBuilds builds pid := by
          simp [getStagedBuilds, List.filter_append]
        rw [this]
        exact hle
      · by_cases hlen3 : MAX_STAGED ≤ (getStagedBuilds builds pid).length
        · simp [createBuildMessage, hf, hact, hlen3] at hok
        · simp only [createBuildMessage, hf, Bool.false_eq_true, if_false, hact, hlen3,
            Except.ok.injEq, Prod.mk.injEq] at hok
          obtain ⟨h1, -, -⟩ := hok
          subst h1
          have hx : getStagedBuilds (builds ++
              [{ id := newId, project_id := pid, status := .pending,
                 depends_on_build_id := some (chainTailId builds pid a),
                 content := content, attachments := attachments,
                 version_number := (projectBuilds builds pid).length + 1, created_at := now }]) pid =
              getStagedBuilds builds pid ++
              [{ id := newId, project_id := pid, status := .pending,
                 depends_on_build_id := some (chainTailId builds pid a),
                 content := content, attachments := attachments,
                 version_number := (projectBuilds builds pid).length + 1, created_at := now }] := by
            simp [getStagedBuilds, List.filter_append]
          rw [hx, List.length_append]
          simp only [MAX_STAGED, Nat.not_le] at hlen3
          simp
          omega

/-- Witness for C4: the concrete chain has an active build and 3 staged
builds; the next message is rejected with max_staged_builds, and a
successful message on the shorter chain keeps the count at 3 or less. -/
theorem max_staged_limit_witness :
    ((mostRecentBuild demoChain3 7).any (fun b => b.status = .failed) = false ∧
      activeBuild demoChain3 7 = some demoActive ∧
      (getStagedBuilds demoChain3 7).length = 3 ∧
      createBuildMessage demoChain3 7 "feature d" "" 5 14 = .error .max_staged_builds) ∧
    ((getStagedBuilds demoChain1 7).length ≤ 3 ∧
      ∀ builds2 b staged,
        createBuildMessage demoChain1 7 "feature b" "" 3 12 = .ok (builds2, b, staged) →
        (getStagedBuilds builds2 7).length ≤ 3) :=
  ⟨⟨by decide, by decide, by decide,
    (max_staged_limit demoChain3 7 "feature d" "" 5 14 demoActive).1
      (by decide) (by decide) (by decide)⟩,
   ⟨by decide,
    (max_staged_limit demoChain1 7 "feature b" "" 3 12 demoActive).2 (by decide)⟩⟩

/-- In a table with pairwise distinct build ids, a build present in the
table accounts for exactly one row with its id. -/
theorem countP_id_unique (builds : List Build) (delb : Build) (bid : Nat)
    (hnodup : (builds.map Build.id).Nodup) (hmem : delb ∈ builds) (hid : delb.id = bid) :
    builds.countP (fun b => decide (b.id = bid)) = 1 := by
  induction builds with
  | nil => simp at hmem
  | cons x rest ih =>
    simp only [List.map_cons, List.nodup_cons] at hnodup
    rcases List.mem_cons.1 hmem with hx | hx
    · subst hx
      have hzero : rest.countP (fun b => decide (b.id = bid)) = 0 := by
        rw [List.countP_eq_zero]
        intro a ha
        simp only [decide_eq_true_eq]
        intro hab
        exact hnodup.1 (by
          rw [hid, ← hab]
          exact List.mem_map_of_mem Build.id ha)
      rw [List.countP_cons, hzero]
      simp [hid]
    · have hone := ih hnodup.2 hx
      have hne : ¬ x.id = bid := by
        intro hxb
        exact hnodup.1 (by
          rw [hxb, ← hid]
          exact List.mem_map_of_mem Build.id hx)
      rw [List.countP_cons, hone]
      simp [hne]

/-- Removing the rows with one id splits the table length between the
kept rows and the matching rows. -/
theorem filter_partition_length (l : List Build) (bid : Nat) :
    (l.filter (fun b => ¬ b.id = bid)).length + l.countP (fun b => decide (b.id = bid)) =
      l.length := by
  induction l with
  | nil => rfl
  | cons x rest ih =>
    by_cases hx : x.id = bid
    · have hfc : (x :: rest).filter (fun b => ¬ b.id = bid) =
          rest.filter (fun b => ¬ b.id = bid) := by
        simp [List.filter_cons, hx]
      have hcc : (x :: rest).countP (fun b => decide (b.id = bid)) =
          rest.countP (fun b => decide (b.id = bid)) + 1 := by
        simp [List.countP_cons, hx]
      rw [hfc, hcc, List.length_cons]
      omega
    · have hfc : (x :: rest).filter (fun b => ¬ b.id = bid) =
          x :: rest.filter (fun b => ¬ b.id = bid) := by
        simp [List.filter_cons, hx]
      have hcc : (x :: rest).countP (fun b => decide (b.id = bid)) =
          rest.countP (fun b => decide (b.id = bid)) := by
        simp [List.countP_cons, hx]
      rw [hfc, hcc, List.length_cons, List.length_cons]
      omega

/-- C5: deleting a staged (pending) build from a table with distinct,
acyclic ids removes exactly that node — the table shrinks by exactly
one row and no surviving row carries the deleted id — splices the
chain — no surviving row references the deleted id as its dependency —
and rewrites each dependent of the deleted node to the deleted node's
own dependency (its predecessor, or the active build when it was the
chain head) while every other surviving row is kept as is. -/
theorem delete_staged_splice (builds : List Build) (bid : Nat) (delb : Build)
    (hfind : builds.find? (fun b => b.id = bid) = some delb)
    (hpend : delb.status = .pending)
    (hnodup : (builds.map Build.id).Nodup)
    (hnoself : ¬ delb.depends_on_build_id = some bid) :
    ∃ builds2, deleteStaged builds bid = .ok builds2 ∧
      builds2.length + 1 = builds.length ∧
      (∀ b ∈ builds2, ¬ b.id = bid) ∧
      (∀ b ∈ builds2, ¬ b.depends_on_build_id = some bid) ∧
      (∀ b ∈ builds, ¬ b.id = bid →
        (if b.depends_on_build_id = some bid then
            { b with depends_on_build_id := delb.depends_on_build_id }
          else b) ∈ builds2) := by
  have hmem : delb ∈ builds := List.mem_of_find?_eq_some hfind
  have hdid : delb.id = bid := by
    have := List.find?_some hfind
    simpa using this
  refine ⟨(builds.filter (fun b => ¬ b.id = bid)).map
    (fun b =>
      if b.depends_on_build_id = some bid then
        { b with depends_on_build_id := delb.depends_on_build_id }
      else b), ?_, ?_, ?_, ?_, ?_⟩
  · simp [deleteStaged, hfind, hpend]
  · rw [List.length_map]
    have h1 := filter_partition_length builds bid
    have h2 := countP_id_unique builds delb bid hnodup hmem hdid
    omega
  · intro b hb
    obtain ⟨y, hy, hyb⟩ := List.mem_map.1 hb
    have hyne : ¬ y.id = bid := by
      have := (List.mem_filter.1 hy).2
      simpa using this
    by_cases hdep : y.depends_on_build_id = some bid
    · rw [if_pos hdep] at hyb
      rw [← hyb]
      exact hyne
    · rw [if_neg hdep] at hyb
      rw [← hyb]
      exact hyne
  · intro b hb
    obtain ⟨y, hy, hyb⟩ := List.mem_map.1 hb
    by_cases hdep : y.depends_on_build_id = some bid
    · rw [if_pos hdep] at hyb
      rw [← hyb]
      exact hnoself
    · rw [if_neg hdep] at hyb
      rw [← hyb]
      exact hdep
  · intro b hb hne
    have hbf : b ∈ builds.filter (fun x => ¬ x.id = bid) := by
      rw [List.mem_filter]
      exact ⟨hb, by simpa using hne⟩
    exact List.mem_map_of_mem _ hbf

/-- Witness for C5: deleting the middle staged build (id 3) of the
concrete chain 1 ← 2 ← 3 ← 4 removes exactly that node and rewrites
build 4 to depend on build 2; concretely the spliced staged list is
[2 ← 1, 4 ← 2]. -/
theorem delete_staged_splice_witness :
    (demoChain3.find? (fun b => b.id = 3) = some (demoStaged 3 2 3 12 "feature b") ∧
      (demoStaged 3 2 3 12 "feature b").status = .pending ∧
      (demoChain3.map Build.id).Nodup ∧
      ¬ (demoStaged 3 2 3 12 "feature b").depends_on_build_id = some 3) ∧
    (∃ builds2, deleteStaged demoChain3 3 = .ok builds2 ∧
      builds2.length + 1 = demoChain3.length ∧
      (∀ b ∈ builds2, ¬ b.id = 3) ∧
      (∀ b ∈ builds2, ¬ b.depends_on_build_id = some 3) ∧
      (∀ b ∈ demoChain3, ¬ b.id = 3 →
        (if b.depends_on_build_id = some 3 then
            { b with depends_on_build_id := (demoStaged 3 2 3 12 "feature b").depends_on_build_id }
          else b) ∈ builds2)) ∧
    (deleteStaged demoChain3 3).map (fun l => (getStagedBuilds l 7).map
        (fun b => (b.id, b.depends_on_build_id))) =
      .ok [(2, some 1), (4, some 2)] :=
  ⟨⟨by decide, by decide, by decide, by decide⟩,
   delete_staged_splice demoChain3 3 (demoStaged 3 2 3 12 "feature b")
     (by decide) (by decide) (by decide) (by decide),
   by rfl⟩

/-- C6: reporting a build as succeeded promotes every pending build that
depended on it (its status leaves pending for queued), and afterwards no
build returned by GetStagedBuilds depends on the succeeded build — the
dependent has disappeared from the staged list. -/
theorem promotion_on_success (builds : List Build) (xid pid : Nat) :
    (∀ y ∈ builds, y.status = .pending → y.depends_on_build_id = some xid → ¬ y.id = xid →
      { y with status := .queued } ∈ reportBuildStatus builds xid .succeeded) ∧
    (∀ z ∈ getStagedBuilds (reportBuildStatus builds xid .succeeded) pid,
      ¬ z.depends_on_build_id = some xid) := by
  have hrep : reportBuildStatus builds xid .succeeded =
      promoteDependents (setBuildStatus builds xid .succeeded) xid := by
    simp [reportBuildStatus]
  constructor
  · intro y hy hp hd hne
    have hfy : (if y.id = xid then { y with status := BuildStatus.succeeded } else y) = y :=
      if_neg hne
    have h1 : y ∈ setBuildStatus builds xid .succeeded := by
      have h0 := List.mem_map_of_mem
        (fun b => if b.id = xid then { b with status := BuildStatus.succeeded } else b) hy
      simpa [setBuildStatus, hne] using h0
    have h2 : ({ y with status := BuildStatus.queued }) ∈
        promoteDependents (setBuildStatus builds xid .succeeded) xid := by
      have h0 := List.mem_map_of_mem
        (fun b => if b.status = BuildStatus.pending ∧ b.depends_on_build_id = some xid then
          { b with status := BuildStatus.queued } else b) h1
      simpa [promoteDependents, hp, hd] using h0
    rw [hrep]
    exact h2
  · intro z hz
    rw [hrep] at hz
    have hz2 := List.mem_filter.1 hz
    have hzp : z.project_id = pid ∧ z.status = BuildStatus.pending := by
      simpa using hz2.2
    have hzm := hz2.1
    simp only [promoteDependents, List.mem_map] at hzm
    obtain ⟨w, hw, hwz⟩ := hzm
    by_cases hc : w.status = BuildStatus.pending ∧ w.depends_on_build_id = some xid
    · rw [if_pos hc] at hwz
      rw [← hwz] at hzp
      simp at hzp
    · rw [if_neg hc] at hwz
      subst hwz
      intro hdep
      exact hc ⟨hzp.2, hdep⟩

/-- Witness for C6: in the concrete one-staged-build chain, reporting
the active build succeeded promotes the staged build to queued and
leaves the staged list empty of anything depending on it. -/
theorem promotion_on_success_witness :
    (demoStaged 2 1 2 11 "feature a" ∈ demoChain1 ∧
      (demoStaged 2 1 2 11 "feature a").status = .pending ∧
      (demoStaged 2 1 2 11 "feature a").depends_on_build_id = some 1 ∧
      ¬ (demoStaged 2 1 2 11 "feature a").id = 1 ∧
      { demoStaged 2 1 2 11 "feature a" with status := BuildStatus.queued } ∈
        reportBuildStatus demoChain1 1 .succeeded) ∧
    getStagedBuilds (reportBuildStatus demoChain1 1 .succeeded) 7 = [] :=
  ⟨⟨by decide, by decide, by decide, by decide,
    (promotion_on_success demoChain1 1 7).1 (demoStaged 2 1 2 11 "feature a")
      (by decide) (by decide) (by decide) (by decide)⟩,
   by decide⟩

/-- C10: GetStagedBuilds returns exactly the pending builds of the
project — one entry per pending row, so k staged builds give k entries
— as a sublist of the table, hence in creation order, and never
contains an active (queued or running) build such as the chain's root. -/
theorem staged_builds_view (builds : List Build) (pid : Nat) :
    List.Sublist (getStagedBuilds builds pid) builds ∧
    (∀ z ∈ getStagedBuilds builds pid, z.project_id = pid ∧ z.status = .pending) ∧
    (getStagedBuilds builds pid).length =
      builds.countP (fun b => decide (b.project_id = pid ∧ b.status = .pending)) ∧
    (∀ a ∈ builds, isActiveStatus a.status = true → ¬ a ∈ getStagedBuilds builds pid) := by
  refine ⟨List.filter_sublist builds, ?_, ?_, ?_⟩
  · intro z hz
    have h2 := (List.mem_filter.1 hz).2
    simpa using h2
  · exact (List.countP_eq_length_filter _ _).symm
  · intro a ha hact hmem
    have h2 := (List.mem_filter.1 hmem).2
    have h3 : a.status = BuildStatus.pending := by
      have := of_decide_eq_true h2
      exact this.2
    rw [h3] at hact
    simp [isActiveStatus] at hact

/-- Witness for C10: the concrete chain with one active and three staged
builds yields a staged list of exactly three entries, in creation
order, without the active root. -/
theorem staged_builds_view_witness :
    (getStagedBuilds demoChain3 7).length =
      demoChain3.countP (fun b => decide (b.project_id = 7 ∧ b.status = .pending)) ∧
    (getStagedBuilds demoChain3 7).map Build.id = [2, 3, 4] ∧
    demoActive ∈ demoChain3 ∧ isActiveStatus demoActive.status = true ∧
    ¬ demoActive ∈ getStagedBuilds demoChain3 7 :=
  ⟨(staged_builds_view demoChain3 7).2.2.1, by decide, by decide, by decide,
   (staged_builds_view demoChain3 7).2.2.2 demoActive (by decide) (by decide)⟩

/-- C9: one Release leaves the VM idle with project, lease and
desired-build cleared, and Release composed with Release equals
Release — the second consecutive call succeeds (it is a total
function reporting affected rows, never an error) and leaves the
state identical. -/
theorem release_idempotent (pool : List VM) (instId now : Nat) :
    (∀ vm ∈ (releaseVm pool instId now).1, vm.instance_id = instId →
      vm.status = .idle ∧ vm.project_id = none ∧ vm.lease_owner = none ∧
      vm.lease_expires_at = none ∧ vm.desired_build_id = none ∧
      vm.last_shutdown_at = some now) ∧
    releaseVm (releaseVm pool instId now).1 instId now = releaseVm pool instId now := by
  constructor
  · intro vm hvm hinst
    simp only [releaseVm, List.mem_map] at hvm
    obtain ⟨x, _, hx⟩ := hvm
    by_cases hid : x.instance_id = instId
    · rw [if_pos hid] at hx
      subst hx
      simp [releaseUpdate]
    · rw [if_neg hid] at hx
      subst hx
      exact absurd hinst hid
  · have hff : ∀ a : VM,
        (fun x => if x.instance_id = instId then releaseUpdate x now else x)
          ((fun x => if x.instance_id = instId then releaseUpdate x now else x) a) =
        (fun x => if x.instance_id = instId then releaseUpdate x now else x) a := by
      intro a
      by_cases hid : a.instance_id = instId
      · have hkeep : (releaseUpdate a now).instance_id = instId := hid
        simp only [hid, if_pos, hkeep]
        rfl
      · simp only [hid, if_neg, not_false_iff]
    have hpf : ∀ a : VM,
        decide (((fun x => if x.instance_id = instId then releaseUpdate x now else x) a).instance_id = instId) =
        decide (a.instance_id = instId) := by
      intro a
      by_cases hid : a.instance_id = instId
      · have hkeep : (releaseUpdate a now).instance_id = instId := hid
        simp [hid, hkeep]
      · simp [hid]
    have hmap : ∀ l : List VM,
        (l.map (fun x => if x.instance_id = instId then releaseUpdate x now else x)).map
            (fun x => if x.instance_id = instId then releaseUpdate x now else x) =
          l.map (fun x => if x.instance_id = instId then releaseUpdate x now else x) := by
      intro l
      induction l with
      | nil => rfl
      | cons a t iht => simp only [List.map_cons, iht, hff a]
    have hcnt : ∀ l : List VM,
        (l.map (fun x => if x.instance_id = instId then releaseUpdate x now else x)).countP
            (fun vm => decide (vm.instance_id = instId)) =
          l.countP (fun vm => decide (vm.instance_id = instId)) := by
      intro l
      induction l with
      | nil => rfl
      | cons a t iht => simp only [List.map_cons, List.countP_cons, iht, hpf a]
    simp only [releaseVm]
    rw [Prod.mk.injEq]
    exact ⟨hmap pool, hcnt pool⟩

/-- Witness for C9: releasing the busy VM of the concrete pool yields an
idle cleared record, and a repeated release is byte-identical. -/
theorem release_idempotent_witness :
    (∀ vm ∈ (releaseVm [vmBusy 1] 1 50).1, vm.instance_id = 1 →
      vm.status = .idle ∧ vm.project_id = none ∧ vm.lease_owner = none ∧
      vm.lease_expires_at = none ∧ vm.desired_build_id = none ∧
      vm.last_shutdown_at = some 50) ∧
    releaseVm (releaseVm [vmBusy 1] 1 50).1 1 50 = releaseVm [vmBusy 1] 1 50 :=
  release_idempotent [vmBusy 1] 1 50
